import Mathlib

/-!
Verification of `src/utils/raster_processing.py` (`resample_raster`).

The Python function resamples a 2-D labeled raster (xarray `DataArray` with
coordinate axes `lon` and `lat`) either by block-mean coarsening
(`method = "downsample"`, delegating to `da.coarsen(..., boundary="trim").mean()`)
or by linear interpolation onto `np.arange`-generated axes
(`method = "upsample"`, delegating to `da.interp`).

Shallow embedding conventions:
* floating-point coordinates and values are idealised as exact rationals `ℚ`;
* a raster is a pair of coordinate lists plus a total value function on
  indices, the logical grid shape being `lon.length × lat.length`;
* Python exceptions are modelled by an `Except` result: the `IndexError`
  raised by `da.lon[1]` / `da.lat[1]` on an axis with fewer than two points,
  the `ZeroDivisionError` raised by `np.arange` when the step is zero, and
  the two `ValueError`s raised explicitly by `resample_raster`.
-/

/-- A 2-D labeled raster: coordinate axes `lon` and `lat` (exact rationals
standing in for the floating-point coordinate values) and a value grid given
as a total function on indices; index `(i, j)` holds the value at coordinate
`(lon[i], lat[j])`.  The logical grid shape is `lon.length × lat.length`. -/
@[ext]
structure Raster where
  lon : List ℚ
  lat : List ℚ
  vals : ℕ → ℕ → ℚ

/-- Errors the Python function can raise.  `indexError` models the
`IndexError` from evaluating `da.lon[1]` (resp. `da.lat[1]`) when an axis has
fewer than two points; `zeroDivisionError` models `np.arange` called with a
zero step; `invalidResolution` models
`ValueError("Target resolution must be larger than current resolution for downsampling.")`;
`invalidMethod` models the final `ValueError` for an unsupported method. -/
inductive RasterError
  | indexError
  | zeroDivisionError
  | invalidResolution
  | invalidMethod
deriving DecidableEq

/-- The method string accepted by the downsampling branch. -/
def downsampleMethod : String := "downsample"

/-- The method string accepted by the upsampling branch. -/
def upsampleMethod : String := "upsample"

/-- Python `int()` applied to an exact rational: truncation toward zero. -/
def pyInt (q : ℚ) : ℤ := if 0 ≤ q then ⌊q⌋ else -⌊-q⌋

/-- Minimum of a coordinate list (`da.lon.min()` in numpy); the axes the
function touches are non-empty, so the default for `[]` is irrelevant. -/
def lmin : List ℚ → ℚ
  | [] => 0
  | x :: xs => xs.foldl min x

/-- Maximum of a coordinate list (`da.lon.max()` in numpy). -/
def lmax : List ℚ → ℚ
  | [] => 0
  | x :: xs => xs.foldl max x

/-- Length of `np.arange(start, stop, step)` for a nonzero step:
`max(ceil((stop - start) / step), 0)`.  In exact arithmetic this agrees with
the half-open generation rule (keep `start + k * step` while it is strictly
before `stop` in the direction of `step`). -/
def arangeLen (start stop step : ℚ) : ℕ := (Int.ceil ((stop - start) / step)).toNat

/-- The list produced by `np.arange(start, stop, step)` for a nonzero step:
`start + k * step` for `k < arangeLen start stop step`.  The zero-step
`ZeroDivisionError` is raised by the caller (`resample_raster`) before this
list is formed. -/
def arange (start stop step : ℚ) : List ℚ :=
  (List.range (arangeLen start stop step)).map fun k : ℕ => start + (k : ℚ) * step

/-- Mean of the `i`-th contiguous block of `f` entries of a coordinate list;
`xarray`'s `coarsen(...).mean()` aggregates coordinates the same way as
values. -/
def blockAvg (f : ℕ) (xs : List ℚ) (i : ℕ) : ℚ :=
  (Finset.sum (Finset.range f) fun a => xs.getD (i * f + a) 0) / (f : ℚ)

/-- Embedding of `da.coarsen(lat=lat_factor, lon=lon_factor, boundary="trim").mean()`:
both axes are cut into contiguous blocks of `lon_factor` (resp. `lat_factor`)
cells, trailing cells that do not fill a block are dropped (`boundary="trim"`),
and every output cell (and output coordinate) is the arithmetic mean of its
block. -/
def coarsenMean (da : Raster) (lon_factor lat_factor : ℕ) : Raster :=
  ⟨(List.range (da.lon.length / lon_factor)).map (blockAvg lon_factor da.lon),
   (List.range (da.lat.length / lat_factor)).map (blockAvg lat_factor da.lat),
   fun i j =>
     (Finset.sum (Finset.range lon_factor) fun a =>
       Finset.sum (Finset.range lat_factor) fun b =>
         da.vals (i * lon_factor + a) (j * lat_factor + b)) /
       ((lon_factor : ℚ) * (lat_factor : ℚ))⟩

/-- Index of the interpolation cell along one axis for query point `x`:
the grid interval `[xs[i], xs[i+1]]` bracketing `x`, i.e. the largest `i`
with `xs[i] ≤ x`, clamped into `[0, xs.length - 2]` (ascending axis;
`da.interp` only receives in-bounds query points here). -/
def cellIdx (xs : List ℚ) (x : ℚ) : ℕ :=
  min (max (xs.countP fun p => decide (p ≤ x)) 1 - 1) (xs.length - 2)

/-- Embedding of `da.interp(lon=..., lat=...)` at a single in-bounds query
point `(x, y)`: separable (bilinear) linear interpolation on the grid cell
found by `cellIdx`. -/
def interpVal (da : Raster) (x y : ℚ) : ℚ :=
  let i := cellIdx da.lon x
  let j := cellIdx da.lat y
  let x0 := da.lon.getD i 0
  let x1 := da.lon.getD (i + 1) 0
  let y0 := da.lat.getD j 0
  let y1 := da.lat.getD (j + 1) 0
  let t := (x - x0) / (x1 - x0)
  let u := (y - y0) / (y1 - y0)
  (1 - t) * ((1 - u) * da.vals i j + u * da.vals i (j + 1)) +
    t * ((1 - u) * da.vals (i + 1) j + u * da.vals (i + 1) (j + 1))

/-- Current longitude step, `da.lon[1] - da.lon[0]` (signed). -/
def lonStep (da : Raster) : ℚ := da.lon.getD 1 0 - da.lon.getD 0 0

/-- Current latitude step, `da.lat[1] - da.lat[0]` (signed). -/
def latStep (da : Raster) : ℚ := da.lat.getD 1 0 - da.lat.getD 0 0

/-- Embedding of `resample_raster(da, target_resolution, method)`.

Control flow mirrors the Python source line by line:
1. `lon_res = da.lon[1] - da.lon[0]`, `lat_res = da.lat[1] - da.lat[0]`:
   both indexings precede everything else, so an axis with fewer than two
   points raises `IndexError` before the method string is inspected;
2. `method == "downsample"`: integer factors `int(target/current)` with
   truncation toward zero, `ValueError` when either factor is below 1,
   otherwise `coarsen(..., boundary="trim").mean()`;
3. `method == "upsample"`: `np.arange(min, max, target_step)` for each axis
   (the lon axis is built first, so a zero lon step raises
   `ZeroDivisionError` before the lat axis is examined), then `da.interp`
   onto the new axes;
4. otherwise `ValueError("Method must be 'downsample' or 'upsample'.")`. -/
def resample_raster (da : Raster) (target_resolution : ℚ × ℚ) (method : String) :
    Except RasterError Raster :=
  if 2 ≤ da.lon.length ∧ 2 ≤ da.lat.length then
    let target_lon_res := target_resolution.1
    let target_lat_res := target_resolution.2
    if method = downsampleMethod then
      let lon_factor := pyInt (target_lon_res / lonStep da)
      let lat_factor := pyInt (target_lat_res / latStep da)
      if lon_factor < 1 ∨ lat_factor < 1 then
        Except.error RasterError.invalidResolution
      else
        Except.ok (coarsenMean da lon_factor.toNat lat_factor.toNat)
    else if method = upsampleMethod then
      if target_lon_res = 0 then Except.error RasterError.zeroDivisionError
      else if target_lat_res = 0 then Except.error RasterError.zeroDivisionError
      else
        let new_lons := arange (lmin da.lon) (lmax da.lon) target_lon_res
        let new_lats := arange (lmin da.lat) (lmax da.lat) target_lat_res
        Except.ok ⟨new_lons, new_lats,
          fun i j => interpVal da (new_lons.getD i 0) (new_lats.getD j 0)⟩
    else Except.error RasterError.invalidMethod
  else Except.error RasterError.indexError

/-- Whether a resampling result succeeded. -/
def isOk : Except RasterError Raster → Bool
  | Except.ok _ => true
  | Except.error _ => false

/-- The lon axis of a successful resampling result (`[]` on error). -/
def resLon : Except RasterError Raster → List ℚ
  | Except.ok g => g.lon
  | Except.error _ => []

/-- The concrete raster of the spec scenario: `lon = [0,1,2,3]`,
`lat = [0,1,2,3]`, all values `1.0`. -/
def c7da : Raster := ⟨[0, 1, 2, 3], [0, 1, 2, 3], fun _ _ => 1⟩

/-- A raster with a non-uniform ascending lon axis (`[0, 1, 3]`). -/
def c6da : Raster := ⟨[0, 1, 3], [0, 1], fun _ _ => 0⟩

/-- A minimal 2×2 raster. -/
def c10da : Raster := ⟨[0, 1], [0, 1], fun _ _ => 0⟩

/-- A raster whose lon and lat axes are both strictly descending. -/
def c9da : Raster := ⟨[3, 2, 1, 0], [1, 0], fun _ _ => 0⟩

/-- A raster whose lon axis has a single point. -/
def c8da : Raster := ⟨[0], [0, 1], fun _ _ => 0⟩

/-- A raster with uniformly spaced ascending axes: `lon k = a + k * s` for
`k < n` and `lat k = b + k * u` for `k < m`. -/
def uniformRaster (a b s u : ℚ) (n m : ℕ) (v : ℕ → ℕ → ℚ) : Raster :=
  ⟨(List.range n).map fun k : ℕ => a + (k : ℚ) * s,
   (List.range m).map fun k : ℕ => b + (k : ℚ) * u, v⟩

/-! Helper lemmas about list indexing, folds, `arange`, `pyInt` and `cellIdx`. -/

lemma getD_map_range (f : ℕ → ℚ) {n i : ℕ} (h : i < n) (d : ℚ) :
    ((List.range n).map f).getD i d = f i := by
  rw [List.getD_eq_getElem?_getD]
  simp [List.getElem?_map, List.getElem?_range h]

lemma range_map_getD (l : List ℚ) : (List.range l.length).map (fun i => l.getD i 0) = l := by
  apply List.ext_getElem (by simp)
  intro n h1 h2
  simp [List.getD_eq_getElem?_getD, List.getElem?_eq_getElem h2]

lemma getD_eq_getElem (l : List ℚ) {n : ℕ} (h : n < l.length) (d : ℚ) : l.getD n d = l[n] := by
  rw [List.getD_eq_getElem?_getD, List.getElem?_eq_getElem h]
  rfl

lemma foldl_min_le_init (l : List ℚ) (x : ℚ) : l.foldl min x ≤ x := by
  induction l generalizing x with
  | nil => exact le_refl x
  | cons a l ih => exact le_trans (ih (min x a)) (min_le_left x a)

lemma foldl_min_le_mem (l : List ℚ) (x y : ℚ) (h : y ∈ l) : l.foldl min x ≤ y := by
  induction l generalizing x with
  | nil => cases h
  | cons a l ih =>
    rcases List.mem_cons.mp h with rfl | hy
    · exact le_trans (foldl_min_le_init l (min x y)) (min_le_right x y)
    · exact ih (min x a) hy

lemma le_foldl_max_init (l : List ℚ) (x : ℚ) : x ≤ l.foldl max x := by
  induction l generalizing x with
  | nil => exact le_refl x
  | cons a l ih => exact le_trans (le_max_left x a) (ih (max x a))

lemma le_foldl_max_mem (l : List ℚ) (x y : ℚ) (h : y ∈ l) : y ≤ l.foldl max x := by
  induction l generalizing x with
  | nil => cases h
  | cons a l ih =>
    rcases List.mem_cons.mp h with rfl | hy
    · exact le_trans (le_max_right x y) (le_foldl_max_init l (max x y))
    · exact ih (max x a) hy

lemma lmin_le {l : List ℚ} {y : ℚ} (h : y ∈ l) : lmin l ≤ y := by
  cases l with
  | nil => cases h
  | cons a l =>
    rcases List.mem_cons.mp h with rfl | hy
    · exact foldl_min_le_init l y
    · exact foldl_min_le_mem l a y hy

lemma le_lmax {l : List ℚ} {y : ℚ} (h : y ∈ l) : y ≤ lmax l := by
  cases l with
  | nil => cases h
  | cons a l =>
    rcases List.mem_cons.mp h with rfl | hy
    · exact le_foldl_max_init l y
    · exact le_foldl_max_mem l a y hy

lemma foldl_min_eq (l : List ℚ) (x : ℚ) (h : ∀ y ∈ l, x ≤ y) : l.foldl min x = x := by
  induction l generalizing x with
  | nil => rfl
  | cons a l ih =>
    have hxa : min x a = x := min_eq_left (h a (List.mem_cons_self a l))
    rw [List.foldl_cons, hxa]
    exact ih x fun y hy => h y (List.mem_cons_of_mem a hy)

lemma foldl_max_eq (l : List ℚ) (x m : ℚ) (hx : x ≤ m) (hmem : m = x ∨ m ∈ l)
    (hub : ∀ y ∈ l, y ≤ m) : l.foldl max x = m := by
  induction l generalizing x with
  | nil =>
    rcases hmem with rfl | hm
    · rfl
    · cases hm
  | cons a l ih =>
    rw [List.foldl_cons]
    have ha : a ≤ m := hub a (List.mem_cons_self a l)
    have hub' : ∀ y ∈ l, y ≤ m := fun y hy => hub y (List.mem_cons_of_mem a hy)
    rcases hmem with rfl | hm
    · have : max m a = m := max_eq_left ha
      rw [this]
      exact ih m (le_refl m) (Or.inl rfl) hub'
    · rcases List.mem_cons.mp hm with rfl | hm'
      · have : max x m = m := max_eq_right hx
        rw [this]
        exact ih m (le_refl m) (Or.inl rfl) hub'
      · exact ih (max x a) (max_le hx ha) (Or.inr hm') hub'

lemma arange_length (a b s : ℚ) : (arange a b s).length = arangeLen a b s := by
  rw [arange, List.length_map, List.length_range]

lemma arange_getD {a b s : ℚ} {k : ℕ} (h : k < arangeLen a b s) :
    (arange a b s).getD k 0 = a + (k : ℚ) * s := by
  unfold arange
  exact getD_map_range _ h 0

lemma lt_arangeLen_iff {a b s : ℚ} (hs : 0 < s) (k : ℕ) :
    k < arangeLen a b s ↔ a + (k : ℚ) * s < b := by
  rw [arangeLen, Int.lt_toNat, Int.lt_ceil]
  rw [lt_div_iff₀ hs]
  push_cast
  constructor <;> intro h <;> linarith

lemma arangeLen_nonpos {a b s : ℚ} (hs : s < 0) (hab : a ≤ b) : arangeLen a b s = 0 := by
  have hq : (b - a) / s ≤ 0 := div_nonpos_of_nonneg_of_nonpos (by linarith) (le_of_lt hs)
  have : (⌈(b - a) / s⌉ : ℤ) ≤ 0 := Int.ceil_le.mpr (by exact_mod_cast hq)
  exact Int.toNat_of_nonpos this

lemma pyInt_natCast (f : ℕ) : pyInt (f : ℚ) = f := by
  rw [pyInt, if_pos (by positivity)]
  exact Int.floor_natCast f

lemma pyInt_mul_div_self (f : ℕ) {s : ℚ} (hs : s ≠ 0) : pyInt ((f : ℚ) * s / s) = f := by
  rw [mul_div_cancel_right₀ _ hs]
  exact pyInt_natCast f

lemma pyInt_lt_one_of_lt_one {q : ℚ} (h : q < 1) : pyInt q < 1 := by
  rw [pyInt]
  by_cases h0 : 0 ≤ q
  · rw [if_pos h0]
    exact Int.floor_lt.mpr (by exact_mod_cast h)
  · rw [if_neg h0]
    push_neg at h0
    have : (0 : ℤ) ≤ ⌊-q⌋ := Int.floor_nonneg.mpr (by linarith)
    omega

lemma countP_range_le (n i : ℕ) :
    (List.range n).countP (fun k => decide (k ≤ i)) = min (i + 1) n := by
  induction n with
  | zero => simp
  | succ n ih =>
    rw [List.range_succ, List.countP_append, ih]
    by_cases hn : n ≤ i
    · simp [List.countP_cons, hn]
      omega
    · simp [List.countP_cons, hn]
      omega

lemma resample_downsample_eq (da : Raster) (t1 t2 : ℚ)
    (h1 : 2 ≤ da.lon.length) (h2 : 2 ≤ da.lat.length) :
    resample_raster da (t1, t2) downsampleMethod =
      if pyInt (t1 / lonStep da) < 1 ∨ pyInt (t2 / latStep da) < 1 then
        Except.error RasterError.invalidResolution
      else
        Except.ok (coarsenMean da (pyInt (t1 / lonStep da)).toNat
          (pyInt (t2 / latStep da)).toNat) := by
  unfold resample_raster
  rw [if_pos ⟨h1, h2⟩]
  rw [if_pos (rfl : downsampleMethod = downsampleMethod)]

lemma resample_upsample_eq (da : Raster) (t1 t2 : ℚ)
    (h1 : 2 ≤ da.lon.length) (h2 : 2 ≤ da.lat.length) (ht1 : t1 ≠ 0) (ht2 : t2 ≠ 0) :
    resample_raster da (t1, t2) upsampleMethod =
      Except.ok ⟨arange (lmin da.lon) (lmax da.lon) t1,
        arange (lmin da.lat) (lmax da.lat) t2,
        fun i j => interpVal da ((arange (lmin da.lon) (lmax da.lon) t1).getD i 0)
          ((arange (lmin da.lat) (lmax da.lat) t2).getD j 0)⟩ := by
  unfold resample_raster
  rw [if_pos ⟨h1, h2⟩]
  rw [if_neg (by decide : ¬ (upsampleMethod = downsampleMethod))]
  rw [if_pos (rfl : upsampleMethod = upsampleMethod)]
  rw [if_neg ht1, if_neg ht2]

lemma resample_other_eq (da : Raster) (t : ℚ × ℚ) (method : String)
    (h1 : 2 ≤ da.lon.length) (h2 : 2 ≤ da.lat.length)
    (hm1 : method ≠ downsampleMethod) (hm2 : method ≠ upsampleMethod) :
    resample_raster da t method = Except.error RasterError.invalidMethod := by
  unfold resample_raster
  rw [if_pos ⟨h1, h2⟩]
  rw [if_neg hm1, if_neg hm2]

lemma blockAvg_one (xs : List ℚ) (i : ℕ) : blockAvg 1 xs i = xs.getD i 0 := by
  simp [blockAvg, Finset.sum_range_one]

lemma coarsenMean_one_one (da : Raster) : coarsenMean da 1 1 = da := by
  apply Raster.ext
  · show (List.range (da.lon.length / 1)).map (blockAvg 1 da.lon) = da.lon
    rw [Nat.div_one]
    rw [List.map_congr_left fun i _ => blockAvg_one da.lon i]
    exact range_map_getD da.lon
  · show (List.range (da.lat.length / 1)).map (blockAvg 1 da.lat) = da.lat
    rw [Nat.div_one]
    rw [List.map_congr_left fun i _ => blockAvg_one da.lat i]
    exact range_map_getD da.lat
  · funext i j
    simp [coarsenMean, Finset.sum_range_one]

/-- C1: for every raster (axes with at least two points, nonzero current
steps) and all integer factors `fl, ft ≥ 1`, downsampling with target
resolution `(fl * current_lon_step, ft * current_lat_step)` succeeds and
returns a grid of shape `⌊n / fl⌋ × ⌊m / ft⌋` in which every output cell is
the arithmetic mean of one contiguous `fl × ft` block of input cells
(trailing cells that do not fill a block are dropped by the truncated
shape). -/
theorem downsample_factor_block_mean (da : Raster) (fl ft : ℕ)
    (h1 : 2 ≤ da.lon.length) (h2 : 2 ≤ da.lat.length)
    (hfl : 1 ≤ fl) (hft : 1 ≤ ft)
    (hs : lonStep da ≠ 0) (ht : latStep da ≠ 0) :
    ∃ g, resample_raster da ((fl : ℚ) * lonStep da, (ft : ℚ) * latStep da) downsampleMethod
        = Except.ok g ∧
      g.lon.length = da.lon.length / fl ∧
      g.lat.length = da.lat.length / ft ∧
      ∀ i j, g.vals i j =
        (Finset.sum (Finset.range fl) fun a =>
          Finset.sum (Finset.range ft) fun b => da.vals (i * fl + a) (j * ft + b)) /
          ((fl : ℚ) * (ft : ℚ)) := by
  refine ⟨coarsenMean da fl ft, ?_, by simp [coarsenMean], by simp [coarsenMean],
    fun i j => rfl⟩
  rw [resample_downsample_eq da _ _ h1 h2, pyInt_mul_div_self fl hs, pyInt_mul_div_self ft ht]
  rw [if_neg (by push_neg; exact ⟨by exact_mod_cast hfl, by exact_mod_cast hft⟩)]
  simp

/-- C2: for every raster (axes with at least two points), downsampling fails
with the invalid-resolution error exactly when one of the truncated factors
`int(target / current)` is below 1 — and, in particular, a positive target
step strictly smaller than the (positive) current step along either axis
always triggers this error. -/
theorem downsample_invalid_resolution (da : Raster) (t1 t2 : ℚ)
    (h1 : 2 ≤ da.lon.length) (h2 : 2 ≤ da.lat.length) :
    ((pyInt (t1 / lonStep da) < 1 ∨ pyInt (t2 / latStep da) < 1) →
      resample_raster da (t1, t2) downsampleMethod =
        Except.error RasterError.invalidResolution) ∧
    (((0 < t1 ∧ t1 < lonStep da) ∨ (0 < t2 ∧ t2 < latStep da)) →
      resample_raster da (t1, t2) downsampleMethod =
        Except.error RasterError.invalidResolution) := by
  constructor
  · intro hf
    rw [resample_downsample_eq da _ _ h1 h2, if_pos hf]
  · intro hf
    have hf' : pyInt (t1 / lonStep da) < 1 ∨ pyInt (t2 / latStep da) < 1 := by
      rcases hf with ⟨ht0, hts⟩ | ⟨ht0, hts⟩
      · exact Or.inl (pyInt_lt_one_of_lt_one ((div_lt_one (lt_trans ht0 hts)).mpr hts))
      · exact Or.inr (pyInt_lt_one_of_lt_one ((div_lt_one (lt_trans ht0 hts)).mpr hts))
    rw [resample_downsample_eq da _ _ h1 h2, if_pos hf']

/-- C2 witness: the invalid-resolution error at a concrete input (target
steps half the current steps). -/
theorem downsample_invalid_resolution_witness :
    resample_raster c7da (1 / 2, 1 / 2) downsampleMethod =
      Except.error RasterError.invalidResolution :=
  (downsample_invalid_resolution c7da (1 / 2) (1 / 2) (by decide) (by decide)).2
    (Or.inl ⟨by norm_num, by norm_num [lonStep, c7da]⟩)

/-- C3: for every raster (axes with at least two points, nonzero current
steps), downsampling with target resolution equal to the current resolution
(both factors resolve to 1) returns the original raster unchanged: same
axes, same shape, same values. -/
theorem downsample_identity (da : Raster)
    (h1 : 2 ≤ da.lon.length) (h2 : 2 ≤ da.lat.length)
    (hs : lonStep da ≠ 0) (ht : latStep da ≠ 0) :
    resample_raster da (lonStep da, latStep da) downsampleMethod = Except.ok da := by
  rw [resample_downsample_eq da _ _ h1 h2, div_self hs, div_self ht]
  have hone : pyInt 1 = 1 := by norm_num [pyInt]
  rw [hone, if_neg (by norm_num)]
  show Except.ok (coarsenMean da 1 1) = Except.ok da
  rw [coarsenMean_one_one]

/-- C3 witness: identity downsampling at a concrete input. -/
theorem downsample_identity_witness :
    resample_raster c7da (lonStep c7da, latStep c7da) downsampleMethod = Except.ok c7da :=
  downsample_identity c7da (by decide) (by decide)
    (by norm_num [lonStep, c7da]) (by norm_num [latStep, c7da])

/-- C5: for every raster (axes with at least two points), every target
resolution and every method string other than `"downsample"` and
`"upsample"`, the call fails with the invalid-method error; moreover the
result does not depend on the grid values at all (the value function can be
replaced arbitrarily without changing the outcome). -/
theorem unsupported_method_invalid (da : Raster) (t : ℚ × ℚ) (method : String)
    (h1 : 2 ≤ da.lon.length) (h2 : 2 ≤ da.lat.length)
    (hm1 : method ≠ downsampleMethod) (hm2 : method ≠ upsampleMethod) :
    resample_raster da t method = Except.error RasterError.invalidMethod ∧
    ∀ v : ℕ → ℕ → ℚ, resample_raster ⟨da.lon, da.lat, v⟩ t method =
      Except.error RasterError.invalidMethod :=
  ⟨resample_other_eq da t method h1 h2 hm1 hm2,
   fun v => resample_other_eq ⟨da.lon, da.lat, v⟩ t method h1 h2 hm1 hm2⟩

/-- C5 witness: the invalid-method error for the method string
`"nearest"` at a concrete input. -/
theorem unsupported_method_invalid_witness :
    resample_raster c10da (1, 1) "nearest" = Except.error RasterError.invalidMethod :=
  (unsupported_method_invalid c10da (1, 1) "nearest" (by decide) (by decide)
    (by decide) (by decide)).1

/-- C7: the concrete spec scenario: for the raster with
`lon = [0,1,2,3]`, `lat = [0,1,2,3]` and all values `1`, downsampling to
target resolution `(2, 2)` yields a `2 × 2` grid in which every value is
`1`. -/
theorem concrete_downsample_scenario :
    ∃ g, resample_raster c7da (2, 2) downsampleMethod = Except.ok g ∧
      g.lon.length = 2 ∧ g.lat.length = 2 ∧
      ∀ i < 2, ∀ j < 2, g.vals i j = 1 := by
  have h := resample_downsample_eq c7da 2 2 (by decide) (by decide)
  have hs : lonStep c7da = 1 := by norm_num [lonStep, c7da]
  have ht : latStep c7da = 1 := by norm_num [latStep, c7da]
  rw [hs, ht] at h
  have hp : pyInt (2 / 1) = 2 := by norm_num [pyInt]
  rw [hp, if_neg (by norm_num)] at h
  refine ⟨coarsenMean c7da 2 2, ?_, by norm_num [coarsenMean, c7da],
    by norm_num [coarsenMean, c7da], ?_⟩
  · rw [h]
    rfl
  · intro i hi j hj
    interval_cases i <;> interval_cases j <;>
      norm_num [coarsenMean, c7da, Finset.sum_range_succ]

/-- C8: for every raster with fewer than two points on either axis, every
target resolution and every method string (supported or not), the call
fails with the index error raised while computing the current step sizes —
in particular the invalid-method error is never produced. -/
theorem short_axis_index_error (da : Raster) (t : ℚ × ℚ) (method : String)
    (h : da.lon.length < 2 ∨ da.lat.length < 2) :
    resample_raster da t method = Except.error RasterError.indexError ∧
    resample_raster da t method ≠ Except.error RasterError.invalidMethod := by
  have hres : resample_raster da t method = Except.error RasterError.indexError := by
    unfold resample_raster
    rw [if_neg (by omega)]
  refine ⟨hres, ?_⟩
  rw [hres]
  intro hcontra
  exact RasterError.noConfusion (Except.error.inj hcontra)

/-- C8 witness: the index error at a concrete one-point lon axis, with the
unsupported method string `"nearest"`. -/
theorem short_axis_index_error_witness :
    resample_raster c8da (1, 1) "nearest" = Except.error RasterError.indexError ∧
    resample_raster c8da (1, 1) "nearest" ≠ Except.error RasterError.invalidMethod :=
  short_axis_index_error c8da (1, 1) "nearest" (Or.inl (by decide))

lemma arange_mem_bounds {a b s : ℚ} (hs : 0 < s) {x : ℚ} (hx : x ∈ arange a b s) :
    a ≤ x ∧ x < b := by
  rw [arange, List.mem_map] at hx
  obtain ⟨k, hk, rfl⟩ := hx
  rw [List.mem_range] at hk
  constructor
  · have hk0 : (0 : ℚ) ≤ (k : ℚ) * s := by positivity
    linarith
  · exact (lt_arangeLen_iff hs k).mp hk

/-- C4: for every raster (axes with at least two points) and positive target
steps, upsampling succeeds and the new lon axis consists exactly of the
points `min(lon) + k * t1` that are strictly less than `max(lon)` (half-open
range, so `k` ranges over `0, 1, ...` up to the axis length), and likewise
for lat; consequently every new axis point lies within the original axis
bounds (the output shape being the product of the new axis lengths). -/
theorem upsample_axes_halfopen (da : Raster) (t1 t2 : ℚ)
    (h1 : 2 ≤ da.lon.length) (h2 : 2 ≤ da.lat.length)
    (ht1 : 0 < t1) (ht2 : 0 < t2) :
    ∃ g, resample_raster da (t1, t2) upsampleMethod = Except.ok g ∧
      (∀ k, k < g.lon.length → g.lon.getD k 0 = lmin da.lon + (k : ℚ) * t1) ∧
      (∀ k : ℕ, (lmin da.lon + (k : ℚ) * t1 < lmax da.lon ↔ k < g.lon.length)) ∧
      (∀ k, k < g.lat.length → g.lat.getD k 0 = lmin da.lat + (k : ℚ) * t2) ∧
      (∀ k : ℕ, (lmin da.lat + (k : ℚ) * t2 < lmax da.lat ↔ k < g.lat.length)) ∧
      (∀ x ∈ g.lon, lmin da.lon ≤ x ∧ x < lmax da.lon) ∧
      (∀ y ∈ g.lat, lmin da.lat ≤ y ∧ y < lmax da.lat) := by
  refine ⟨_, resample_upsample_eq da t1 t2 h1 h2 (ne_of_gt ht1) (ne_of_gt ht2),
    ?_, ?_, ?_, ?_, ?_, ?_⟩
  · show ∀ k, k < (arange (lmin da.lon) (lmax da.lon) t1).length →
      (arange (lmin da.lon) (lmax da.lon) t1).getD k 0 = lmin da.lon + (k : ℚ) * t1
    intro k hk
    rw [arange_length] at hk
    exact arange_getD hk
  · show ∀ k : ℕ, lmin da.lon + (k : ℚ) * t1 < lmax da.lon ↔
      k < (arange (lmin da.lon) (lmax da.lon) t1).length
    intro k
    rw [arange_length]
    exact (lt_arangeLen_iff ht1 k).symm
  · show ∀ k, k < (arange (lmin da.lat) (lmax da.lat) t2).length →
      (arange (lmin da.lat) (lmax da.lat) t2).getD k 0 = lmin da.lat + (k : ℚ) * t2
    intro k hk
    rw [arange_length] at hk
    exact arange_getD hk
  · show ∀ k : ℕ, lmin da.lat + (k : ℚ) * t2 < lmax da.lat ↔
      k < (arange (lmin da.lat) (lmax da.lat) t2).length
    intro k
    rw [arange_length]
    exact (lt_arangeLen_iff ht2 k).symm
  · show ∀ x ∈ arange (lmin da.lon) (lmax da.lon) t1,
      lmin da.lon ≤ x ∧ x < lmax da.lon
    intro x hx
    exact arange_mem_bounds ht1 hx
  · show ∀ y ∈ arange (lmin da.lat) (lmax da.lat) t2,
      lmin da.lat ≤ y ∧ y < lmax da.lat
    intro y hy
    exact arange_mem_bounds ht2 hy

/-- C4 witness: the half-open upsampled axes at a concrete input. -/
theorem upsample_axes_halfopen_witness :
    ∃ g, resample_raster c7da (1, 1) upsampleMethod = Except.ok g ∧
      (∀ k, k < g.lon.length → g.lon.getD k 0 = lmin c7da.lon + (k : ℚ) * 1) ∧
      (∀ k : ℕ, (lmin c7da.lon + (k : ℚ) * 1 < lmax c7da.lon ↔ k < g.lon.length)) ∧
      (∀ k, k < g.lat.length → g.lat.getD k 0 = lmin c7da.lat + (k : ℚ) * 1) ∧
      (∀ k : ℕ, (lmin c7da.lat + (k : ℚ) * 1 < lmax c7da.lat ↔ k < g.lat.length)) ∧
      (∀ x ∈ g.lon, lmin c7da.lon ≤ x ∧ x < lmax c7da.lon) ∧
      (∀ y ∈ g.lat, lmin c7da.lat ≤ y ∧ y < lmax c7da.lat) :=
  upsample_axes_halfopen c7da 1 1 (by decide) (by decide) (by norm_num) (by norm_num)

lemma lmin_lt_lmax_of_desc (l : List ℚ) (hl : 2 ≤ l.length)
    (hdesc : ∀ k < l.length - 1, l.getD (k + 1) 0 < l.getD k 0) : lmin l < lmax l := by
  have h0 : (0 : ℕ) < l.length := by omega
  have h1l : (1 : ℕ) < l.length := by omega
  have hmem0 : l.getD 0 0 ∈ l := by
    rw [getD_eq_getElem l h0]
    exact List.getElem_mem h0
  have hmem1 : l.getD 1 0 ∈ l := by
    rw [getD_eq_getElem l h1l]
    exact List.getElem_mem h1l
  have hlt : l.getD 1 0 < l.getD 0 0 := hdesc 0 (by omega)
  exact lt_of_le_of_lt (lmin_le hmem1) (lt_of_lt_of_le hlt (le_lmax hmem0))

lemma arange_ascending_from_min {a b s : ℚ} (hs : 0 < s) (hab : a < b) :
    0 < (arange a b s).length ∧ (arange a b s).getD 0 0 = a ∧
    ∀ k, k + 1 < (arange a b s).length →
      (arange a b s).getD k 0 < (arange a b s).getD (k + 1) 0 := by
  have hL : 0 < arangeLen a b s := by
    refine (lt_arangeLen_iff hs 0).mpr ?_
    push_cast
    linarith
  refine ⟨?_, ?_, ?_⟩
  · rw [arange_length]
    exact hL
  · rw [arange_getD hL]
    push_cast
    ring
  · intro k hk
    rw [arange_length] at hk
    rw [arange_getD (by omega), arange_getD hk]
    have hstep : (k : ℚ) * s < ((k : ℚ) + 1) * s := by nlinarith
    push_cast
    linarith

/-- C9: for every raster (axes with at least two points) and positive target
steps, if the lon axis is strictly descending then upsampling succeeds and
the output lon axis is non-empty, starts at the minimum of the input lon
axis, and is strictly ascending; and likewise for a strictly descending lat
axis and the output lat axis — the descending input ordering is not
preserved on either axis. -/
theorem upsample_descending_axis_ascending (da : Raster) (t1 t2 : ℚ)
    (h1 : 2 ≤ da.lon.length) (h2 : 2 ≤ da.lat.length)
    (ht1 : 0 < t1) (ht2 : 0 < t2) :
    ((∀ k < da.lon.length - 1, da.lon.getD (k + 1) 0 < da.lon.getD k 0) →
      ∃ g, resample_raster da (t1, t2) upsampleMethod = Except.ok g ∧
        0 < g.lon.length ∧ g.lon.getD 0 0 = lmin da.lon ∧
        ∀ k, k + 1 < g.lon.length → g.lon.getD k 0 < g.lon.getD (k + 1) 0) ∧
    ((∀ k < da.lat.length - 1, da.lat.getD (k + 1) 0 < da.lat.getD k 0) →
      ∃ g, resample_raster da (t1, t2) upsampleMethod = Except.ok g ∧
        0 < g.lat.length ∧ g.lat.getD 0 0 = lmin da.lat ∧
        ∀ k, k + 1 < g.lat.length → g.lat.getD k 0 < g.lat.getD (k + 1) 0) := by
  constructor
  · intro hdesc
    have hminmax := lmin_lt_lmax_of_desc da.lon h1 hdesc
    obtain ⟨hpos, hhead, hasc⟩ := arange_ascending_from_min ht1 hminmax
    exact ⟨_, resample_upsample_eq da t1 t2 h1 h2 (ne_of_gt ht1) (ne_of_gt ht2),
      hpos, hhead, hasc⟩
  · intro hdesc
    have hminmax := lmin_lt_lmax_of_desc da.lat h2 hdesc
    obtain ⟨hpos, hhead, hasc⟩ := arange_ascending_from_min ht2 hminmax
    exact ⟨_, resample_upsample_eq da t1 t2 h1 h2 (ne_of_gt ht1) (ne_of_gt ht2),
      hpos, hhead, hasc⟩

/-- C9 witness: upsampling the raster with descending lon axis `[3,2,1,0]`
and descending lat axis `[1,0]` yields ascending output axes starting at the
respective minima. -/
theorem upsample_descending_axis_ascending_witness :
    (∃ g, resample_raster c9da (1, 1) upsampleMethod = Except.ok g ∧
      0 < g.lon.length ∧ g.lon.getD 0 0 = lmin c9da.lon ∧
      ∀ k, k + 1 < g.lon.length → g.lon.getD k 0 < g.lon.getD (k + 1) 0) ∧
    (∃ g, resample_raster c9da (1, 1) upsampleMethod = Except.ok g ∧
      0 < g.lat.length ∧ g.lat.getD 0 0 = lmin c9da.lat ∧
      ∀ k, k + 1 < g.lat.length → g.lat.getD k 0 < g.lat.getD (k + 1) 0) := by
  have h := upsample_descending_axis_ascending c9da 1 1 (by decide) (by decide)
    (by norm_num) (by norm_num)
  refine ⟨h.1 ?_, h.2 ?_⟩
  · intro k hk
    simp only [c9da, List.length_cons, List.length_nil] at hk
    interval_cases k <;> norm_num [c9da]
  · intro k hk
    simp only [c9da, List.length_cons, List.length_nil] at hk
    interval_cases k <;> norm_num [c9da]

/-- C10 counterexample: a zero target step does raise an error — with
`lon = [0,1]` (so the axis minimum is strictly below the maximum), a zero
lon target step makes `np.arange` fail with a division-by-zero error
instead of returning an empty axis. -/
theorem upsample_zero_step_counterexample :
    resample_raster c10da (0, 1) upsampleMethod =
      Except.error RasterError.zeroDivisionError ∧
    lmin c10da.lon < lmax c10da.lon := by
  constructor
  · rfl
  · norm_num [lmin, lmax, c10da]

/-- C10 (amended): for every raster (axes with at least two points), a
strictly negative target step along an axis whose minimum is strictly below
its maximum (the other target step nonzero) does not raise: upsampling
succeeds with an empty corresponding output axis — stated for both the lon
and the lat axis; a zero target step along either axis instead raises the
division-by-zero error of `np.arange`. -/
theorem upsample_nonpositive_step (da : Raster) (t1 t2 : ℚ)
    (h1 : 2 ≤ da.lon.length) (h2 : 2 ≤ da.lat.length) :
    (lmin da.lon < lmax da.lon → t1 < 0 → t2 ≠ 0 →
      ∃ g, resample_raster da (t1, t2) upsampleMethod = Except.ok g ∧ g.lon = []) ∧
    (lmin da.lat < lmax da.lat → t2 < 0 → t1 ≠ 0 →
      ∃ g, resample_raster da (t1, t2) upsampleMethod = Except.ok g ∧ g.lat = []) ∧
    (t1 = 0 →
      resample_raster da (t1, t2) upsampleMethod =
        Except.error RasterError.zeroDivisionError) ∧
    (t2 = 0 →
      resample_raster da (t1, t2) upsampleMethod =
        Except.error RasterError.zeroDivisionError) := by
  have hzero1 : t1 = 0 → resample_raster da (t1, t2) upsampleMethod =
      Except.error RasterError.zeroDivisionError := by
    intro ht1
    subst ht1
    unfold resample_raster
    rw [if_pos ⟨h1, h2⟩]
    rw [if_neg (by decide : ¬ (upsampleMethod = downsampleMethod))]
    rw [if_pos (rfl : upsampleMethod = upsampleMethod)]
    rw [if_pos (show ((0 : ℚ), t2).1 = 0 from rfl)]
  refine ⟨?_, ?_, hzero1, ?_⟩
  · intro hminmax ht1 ht2
    refine ⟨_, resample_upsample_eq da t1 t2 h1 h2 (ne_of_lt ht1) ht2, ?_⟩
    show arange (lmin da.lon) (lmax da.lon) t1 = []
    rw [arange, arangeLen_nonpos ht1 (le_of_lt hminmax)]
    rfl
  · intro hminmax ht2 ht1
    refine ⟨_, resample_upsample_eq da t1 t2 h1 h2 ht1 (ne_of_lt ht2), ?_⟩
    show arange (lmin da.lat) (lmax da.lat) t2 = []
    rw [arange, arangeLen_nonpos ht2 (le_of_lt hminmax)]
    rfl
  · intro ht2
    by_cases ht1 : t1 = 0
    · exact hzero1 ht1
    · subst ht2
      unfold resample_raster
      rw [if_pos ⟨h1, h2⟩]
      rw [if_neg (by decide : ¬ (upsampleMethod = downsampleMethod))]
      rw [if_pos (rfl : upsampleMethod = upsampleMethod)]
      rw [if_neg (show ¬ ((t1, (0 : ℚ)).1 = 0) from ht1)]
      rw [if_pos (show (t1, (0 : ℚ)).2 = 0 from rfl)]

/-- C10 witness: at a concrete input, a negative lon (resp. lat) target step
returns an empty lon (resp. lat) axis without an error, and a zero step
along either axis raises the division-by-zero error. -/
theorem upsample_nonpositive_step_witness :
    (∃ g, resample_raster c10da (-1, 1) upsampleMethod = Except.ok g ∧ g.lon = []) ∧
    (∃ g, resample_raster c10da (1, -1) upsampleMethod = Except.ok g ∧ g.lat = []) ∧
    resample_raster c10da (0, 1) upsampleMethod =
      Except.error RasterError.zeroDivisionError ∧
    resample_raster c10da (1, 0) upsampleMethod =
      Except.error RasterError.zeroDivisionError :=
  ⟨(upsample_nonpositive_step c10da (-1) 1 (by decide) (by decide)).1
      (by norm_num [lmin, lmax, c10da]) (by norm_num) (by norm_num),
   (upsample_nonpositive_step c10da 1 (-1) (by decide) (by decide)).2.1
      (by norm_num [lmin, lmax, c10da]) (by norm_num) (by norm_num),
   (upsample_nonpositive_step c10da 0 1 (by decide) (by decide)).2.2.1 rfl,
   (upsample_nonpositive_step c10da 1 0 (by decide) (by decide)).2.2.2 rfl⟩

lemma lmin_uniform (a s : ℚ) (n' : ℕ) (hs : 0 ≤ s) :
    lmin ((List.range (n' + 1)).map fun k : ℕ => a + (k : ℚ) * s) = a := by
  rw [List.range_succ_eq_map, List.map_cons, List.map_map]
  have h0 : a + ((0 : ℕ) : ℚ) * s = a := by push_cast; ring
  rw [h0]
  show ((List.range n').map ((fun k : ℕ => a + (k : ℚ) * s) ∘ Nat.succ)).foldl min a = a
  apply foldl_min_eq
  intro y hy
  rw [List.mem_map] at hy
  obtain ⟨k, _, rfl⟩ := hy
  show a ≤ a + ((Nat.succ k : ℕ) : ℚ) * s
  have hnn : (0 : ℚ) ≤ ((Nat.succ k : ℕ) : ℚ) * s := by positivity
  linarith

lemma lmax_uniform (a s : ℚ) (n' : ℕ) (hs : 0 ≤ s) :
    lmax ((List.range (n' + 1)).map fun k : ℕ => a + (k : ℚ) * s) = a + (n' : ℚ) * s := by
  rw [List.range_succ_eq_map, List.map_cons, List.map_map]
  show ((List.range n').map ((fun k : ℕ => a + (k : ℚ) * s) ∘ Nat.succ)).foldl max
    (a + ((0 : ℕ) : ℚ) * s) = a + (n' : ℚ) * s
  apply foldl_max_eq
  · have hnn : (0 : ℚ) ≤ (n' : ℚ) * s := by positivity
    push_cast
    linarith
  · cases n' with
    | zero => left; push_cast; ring
    | succ n'' =>
      right
      rw [List.mem_map]
      refine ⟨n'', List.mem_range.mpr (by omega), ?_⟩
      show a + ((Nat.succ n'' : ℕ) : ℚ) * s = a + ((Nat.succ n'' : ℕ) : ℚ) * s
      rfl
  · intro y hy
    rw [List.mem_map] at hy
    obtain ⟨k, hk, rfl⟩ := hy
    rw [List.mem_range] at hk
    show a + ((Nat.succ k : ℕ) : ℚ) * s ≤ a + (n' : ℚ) * s
    have hle : ((Nat.succ k : ℕ) : ℚ) ≤ (n' : ℚ) := by exact_mod_cast hk
    have := mul_le_mul_of_nonneg_right hle hs
    linarith

lemma arange_uniform (a s : ℚ) (n' : ℕ) (hs : 0 < s) :
    arange a (a + (n' : ℚ) * s) s = (List.range n').map fun k : ℕ => a + (k : ℚ) * s := by
  unfold arange
  congr 1
  unfold arangeLen
  rw [show a + (n' : ℚ) * s - a = (n' : ℚ) * s by ring]
  rw [mul_div_cancel_right₀ _ (ne_of_gt hs), Int.ceil_natCast]
  simp

lemma cellIdx_uniform (a s : ℚ) (n : ℕ) (hs : 0 < s) (hn : 2 ≤ n) (i : ℕ) (hi : i ≤ n - 2) :
    cellIdx ((List.range n).map fun k : ℕ => a + (k : ℚ) * s) (a + (i : ℚ) * s) = i := by
  unfold cellIdx
  rw [List.countP_map]
  have hpq : ∀ k ∈ List.range n,
      ((fun p => decide (p ≤ a + (i : ℚ) * s)) ∘ fun k : ℕ => a + (k : ℚ) * s) k = true ↔
        (fun k : ℕ => decide (k ≤ i)) k = true := by
    intro k _
    simp only [Function.comp_apply, decide_eq_true_eq]
    constructor
    · intro h
      have hks : (k : ℚ) * s ≤ (i : ℚ) * s := by linarith
      have hki : (k : ℚ) ≤ (i : ℚ) := le_of_mul_le_mul_right hks hs
      exact_mod_cast hki
    · intro h
      have hki : (k : ℚ) ≤ (i : ℚ) := by exact_mod_cast h
      have := mul_le_mul_of_nonneg_right hki (le_of_lt hs)
      linarith
  rw [List.countP_congr hpq, countP_range_le n i, List.length_map, List.length_range]
  omega

lemma interpVal_uniform_exact (a b s u : ℚ) (n m : ℕ) (v : ℕ → ℕ → ℚ)
    (hs : 0 < s) (hu : 0 < u) (hn : 2 ≤ n) (hm : 2 ≤ m)
    (i j : ℕ) (hi : i ≤ n - 2) (hj : j ≤ m - 2) :
    interpVal (uniformRaster a b s u n m v) (a + (i : ℚ) * s) (b + (j : ℚ) * u) = v i j := by
  simp only [interpVal, uniformRaster]
  rw [cellIdx_uniform a s n hs hn i hi, cellIdx_uniform b u m hu hm j hj]
  rw [getD_map_range _ (show i < n by omega) 0, getD_map_range _ (show j < m by omega) 0]
  rw [sub_self, sub_self, zero_div, zero_div]
  ring

lemma resample_upsample_uniform_eq (a b s u : ℚ) (n' m' : ℕ) (v : ℕ → ℕ → ℚ)
    (hn : 1 ≤ n') (hm : 1 ≤ m') (hs : 0 < s) (hu : 0 < u) :
    resample_raster (uniformRaster a b s u (n' + 1) (m' + 1) v) (s, u) upsampleMethod =
      Except.ok ⟨(List.range n').map fun k : ℕ => a + (k : ℚ) * s,
        (List.range m').map fun k : ℕ => b + (k : ℚ) * u,
        fun i j => interpVal (uniformRaster a b s u (n' + 1) (m' + 1) v)
          (((List.range n').map fun k : ℕ => a + (k : ℚ) * s).getD i 0)
          (((List.range m').map fun k : ℕ => b + (k : ℚ) * u).getD j 0)⟩ := by
  have h1 : 2 ≤ (uniformRaster a b s u (n' + 1) (m' + 1) v).lon.length := by
    simp only [uniformRaster, List.length_map, List.length_range]
    omega
  have h2 : 2 ≤ (uniformRaster a b s u (n' + 1) (m' + 1) v).lat.length := by
    simp only [uniformRaster, List.length_map, List.length_range]
    omega
  have hlonEq : arange (lmin ((List.range (n' + 1)).map fun k : ℕ => a + (k : ℚ) * s))
      (lmax ((List.range (n' + 1)).map fun k : ℕ => a + (k : ℚ) * s)) s =
      (List.range n').map fun k : ℕ => a + (k : ℚ) * s := by
    rw [lmin_uniform a s n' (le_of_lt hs), lmax_uniform a s n' (le_of_lt hs)]
    exact arange_uniform a s n' hs
  have hlatEq : arange (lmin ((List.range (m' + 1)).map fun k : ℕ => b + (k : ℚ) * u))
      (lmax ((List.range (m' + 1)).map fun k : ℕ => b + (k : ℚ) * u)) u =
      (List.range m').map fun k : ℕ => b + (k : ℚ) * u := by
    rw [lmin_uniform b u m' (le_of_lt hu), lmax_uniform b u m' (le_of_lt hu)]
    exact arange_uniform b u m' hu
  rw [resample_upsample_eq _ s u h1 h2 (ne_of_gt hs) (ne_of_gt hu)]
  simp only [uniformRaster]
  rw [hlonEq, hlatEq]

/-- C6 counterexample: the claim fails on a non-uniform ascending lon axis.
For `lon = [0, 1, 3]` the current lon step is `1`, and upsampling with
target resolution equal to the current resolution produces the axis point
`2`, which is not among the original axis values. -/
theorem upsample_identity_counterexample :
    isOk (resample_raster c6da (lonStep c6da, latStep c6da) upsampleMethod) = true ∧
    (2 : ℚ) ∈ resLon (resample_raster c6da (lonStep c6da, latStep c6da) upsampleMethod) ∧
    (2 : ℚ) ∉ c6da.lon := by
  have hstep1 : lonStep c6da = 1 := by norm_num [lonStep, c6da]
  have hstep2 : latStep c6da = 1 := by norm_num [latStep, c6da]
  have h := resample_upsample_eq c6da 1 1 (by decide) (by decide) (by norm_num) (by norm_num)
  have hlon : arange (lmin c6da.lon) (lmax c6da.lon) 1 = [0, 1, 2] := by
    have hlmin : lmin c6da.lon = 0 := by norm_num [lmin, c6da]
    have hlmax : lmax c6da.lon = 3 := by norm_num [lmax, c6da]
    rw [hlmin, hlmax]
    have hlen : arangeLen 0 3 1 = 3 := by
      rw [arangeLen]
      have hceil : ⌈((3 : ℚ) - 0) / 1⌉ = 3 := by norm_num
      rw [hceil]
      rfl
    rw [arange, hlen]
    norm_num [List.range_succ]
  rw [hstep1, hstep2, h]
  refine ⟨rfl, ?_, ?_⟩
  · show (2 : ℚ) ∈ arange (lmin c6da.lon) (lmax c6da.lon) 1
    rw [hlon]
    norm_num
  · norm_num [c6da]

/-- C6 (amended): for every raster with uniformly spaced strictly ascending
axes (`lon k = a + k * s`, `lat k = b + k * u` with `s, u > 0` and at least
two points per axis), upsampling with target resolution equal to the current
resolution `(s, u)` succeeds and returns a grid whose axis points all
coincide with original axis values and whose value at each grid point equals
the original value there (linear interpolation is exact at sample points).
On non-uniform axes the original claim fails (see the counterexample). -/
theorem upsample_identity_uniform (a b s u : ℚ) (n m : ℕ) (v : ℕ → ℕ → ℚ)
    (hn : 2 ≤ n) (hm : 2 ≤ m) (hs : 0 < s) (hu : 0 < u) :
    lonStep (uniformRaster a b s u n m v) = s ∧
    latStep (uniformRaster a b s u n m v) = u ∧
    ∃ g, resample_raster (uniformRaster a b s u n m v) (s, u) upsampleMethod =
        Except.ok g ∧
      (∀ x ∈ g.lon, x ∈ (uniformRaster a b s u n m v).lon) ∧
      (∀ y ∈ g.lat, y ∈ (uniformRaster a b s u n m v).lat) ∧
      (∀ i j, i < g.lon.length → j < g.lat.length → g.vals i j = v i j) := by
  obtain ⟨n', rfl⟩ : ∃ n', n = n' + 1 := ⟨n - 1, by omega⟩
  obtain ⟨m', rfl⟩ : ∃ m', m = m' + 1 := ⟨m - 1, by omega⟩
  refine ⟨?_, ?_, _,
    resample_upsample_uniform_eq a b s u n' m' v (by omega) (by omega) hs hu,
    ?_, ?_, ?_⟩
  · show ((List.range (n' + 1)).map fun k : ℕ => a + (k : ℚ) * s).getD 1 0 -
      ((List.range (n' + 1)).map fun k : ℕ => a + (k : ℚ) * s).getD 0 0 = s
    rw [getD_map_range _ (show 1 < n' + 1 by omega) 0,
      getD_map_range _ (show 0 < n' + 1 by omega) 0]
    push_cast
    ring
  · show ((List.range (m' + 1)).map fun k : ℕ => b + (k : ℚ) * u).getD 1 0 -
      ((List.range (m' + 1)).map fun k : ℕ => b + (k : ℚ) * u).getD 0 0 = u
    rw [getD_map_range _ (show 1 < m' + 1 by omega) 0,
      getD_map_range _ (show 0 < m' + 1 by omega) 0]
    push_cast
    ring
  · show ∀ x ∈ (List.range n').map fun k : ℕ => a + (k : ℚ) * s,
      x ∈ (List.range (n' + 1)).map fun k : ℕ => a + (k : ℚ) * s
    intro x hx
    rw [List.mem_map] at hx ⊢
    obtain ⟨k, hk, rfl⟩ := hx
    rw [List.mem_range] at hk
    exact ⟨k, List.mem_range.mpr (by omega), rfl⟩
  · show ∀ y ∈ (List.range m').map fun k : ℕ => b + (k : ℚ) * u,
      y ∈ (List.range (m' + 1)).map fun k : ℕ => b + (k : ℚ) * u
    intro y hy
    rw [List.mem_map] at hy ⊢
    obtain ⟨k, hk, rfl⟩ := hy
    rw [List.mem_range] at hk
    exact ⟨k, List.mem_range.mpr (by omega), rfl⟩
  · show ∀ i j, i < ((List.range n').map fun k : ℕ => a + (k : ℚ) * s).length →
      j < ((List.range m').map fun k : ℕ => b + (k : ℚ) * u).length →
      interpVal (uniformRaster a b s u (n' + 1) (m' + 1) v)
        (((List.range n').map fun k : ℕ => a + (k : ℚ) * s).getD i 0)
        (((List.range m').map fun k : ℕ => b + (k : ℚ) * u).getD j 0) = v i j
    intro i j hi hj
    rw [List.length_map, List.length_range] at hi hj
    rw [getD_map_range _ hi 0, getD_map_range _ hj 0]
    exact interpVal_uniform_exact a b s u (n' + 1) (m' + 1) v hs hu (by omega) (by omega)
      i j (by omega) (by omega)

/-- C6 witness: exact upsampling identity at a concrete uniform `4 × 4`
grid with linearly varying values. -/
theorem upsample_identity_uniform_witness :
    lonStep (uniformRaster 0 0 1 1 4 4 fun i j => (i : ℚ) + (j : ℚ)) = 1 ∧
    latStep (uniformRaster 0 0 1 1 4 4 fun i j => (i : ℚ) + (j : ℚ)) = 1 ∧
    ∃ g, resample_raster (uniformRaster 0 0 1 1 4 4 fun i j => (i : ℚ) + (j : ℚ)) (1, 1)
        upsampleMethod = Except.ok g ∧
      (∀ x ∈ g.lon, x ∈ (uniformRaster 0 0 1 1 4 4 fun i j => (i : ℚ) + (j : ℚ)).lon) ∧
      (∀ y ∈ g.lat, y ∈ (uniformRaster 0 0 1 1 4 4 fun i j => (i : ℚ) + (j : ℚ)).lat) ∧
      (∀ i j, i < g.lon.length → j < g.lat.length → g.vals i j = (i : ℚ) + (j : ℚ)) :=
  upsample_identity_uniform 0 0 1 1 4 4 (fun i j => (i : ℚ) + (j : ℚ))
    (by norm_num) (by norm_num) (by norm_num) (by norm_num)

/-- C1 witness: block-mean downsampling by factor 2 on the concrete `4 × 4`
raster. -/
theorem downsample_factor_block_mean_witness :
    ∃ g, resample_raster c7da (((2 : ℕ) : ℚ) * lonStep c7da, ((2 : ℕ) : ℚ) * latStep c7da)
        downsampleMethod = Except.ok g ∧
      g.lon.length = c7da.lon.length / 2 ∧
      g.lat.length = c7da.lat.length / 2 ∧
      ∀ i j, g.vals i j =
        (Finset.sum (Finset.range 2) fun a =>
          Finset.sum (Finset.range 2) fun b => c7da.vals (i * 2 + a) (j * 2 + b)) /
          (((2 : ℕ) : ℚ) * ((2 : ℕ) : ℚ)) :=
  downsample_factor_block_mean c7da 2 2 (by decide) (by decide) (by norm_num) (by norm_num)
    (by norm_num [lonStep, c7da]) (by norm_num [latStep, c7da])
